import Mathlib

/-!
# Verification of the CP log ingestion and unit-normalization engine

A shallow embedding of the core of the `cp_data-boxplot-style` repository:
the limit parsers (`unit_adjuster.parse_limit_value`,
`CPLogParser._parse_limit_value`), the unit normalizer
(`unit_adjuster.adjust_unit`), the record extractor's per-cell unit
correction and data-start search (`CPLogParser._parse_file`), the limit
aggregation and default filling (`CPLogParser.parse_all_files`), the
statistics engine (`CPDataAnalyzer.calculate_statistics`) and the standard
cleaning strategy (`StandardCPDataCleanerStrategy.clean`).

Python floats are modelled as exact rationals (`ℚ`), with `NaN` made
explicit where the code distinguishes it; fallible code returns `Option`
(`none` models a raised exception or a `None` result, as indicated at each
definition).
-/

namespace CP

/-- ASCII decimal digit, the `\d` of the source's regexes restricted to
ASCII (all inputs exercised by the code are ASCII). -/
def isAsciiDigit (c : Char) : Bool := '0' ≤ c && c ≤ '9'

/-- ASCII letter, the `[a-zA-Z]` character class. -/
def isAsciiAlpha (c : Char) : Bool := ('a' ≤ c && c ≤ 'z') || ('A' ≤ c && c ≤ 'Z')

/-- Python's default `str.strip` whitespace (ASCII part). -/
def isPySpace (c : Char) : Bool :=
  c = ' ' || c = '\t' || c = '\n' || c = '\x0d' || c = '\x0b' || c = '\x0c'

/-- Python `str.strip()`. -/
def pyStrip (s : String) : String :=
  ⟨((s.data.dropWhile isPySpace).reverse.dropWhile isPySpace).reverse⟩

/-- Python `str.lower()` on the characters this code base uses: ASCII
letters, plus the Greek capital omega `Ω` (U+03A9) which lowercases to
`ω` (U+03C9).  Other characters are left unchanged. -/
def pyLowerChar (c : Char) : Char :=
  if 'A' ≤ c && c ≤ 'Z' then Char.ofNat (c.toNat + 32)
  else if c = 'Ω' then 'ω'
  else c

/-- Python `str.lower()`. -/
def pyLower (s : String) : String := ⟨s.data.map pyLowerChar⟩

/-- Split a character list at every occurrence of `sep`
(Python `str.split(sep)` semantics: `""` splits to `[""]`,
separators at the ends produce empty fields). -/
def splitOn (sep : Char) : List Char → List (List Char)
  | [] => [[]]
  | c :: cs =>
    let r := splitOn sep cs
    if c = sep then [] :: r
    else match r with
      | [] => [[c]]
      | f :: rest => (c :: f) :: rest

/-- Python `line.split('\t')`. -/
def pySplitTab (s : String) : List String := (splitOn '\t' s.data).map (⟨·⟩)

/-- Python `str.isdigit()` restricted to ASCII: nonempty and all digits. -/
def pyIsDigit (s : String) : Bool := s ≠ "" && s.data.all isAsciiDigit

/-- Python `needle in haystack` substring test, over character lists. -/
def containsL (needle : List Char) (haystack : List Char) : Bool :=
  haystack.tails.any (needle.isPrefixOf ·)

/-- Python `needle in haystack` substring test. -/
def containsSub (needle haystack : String) : Bool := containsL needle.data haystack.data

/-- Value of a digit character. -/
def digitVal (c : Char) : ℕ := c.toNat - '0'.toNat

/-- Numeric value of a digit run. -/
def digitsVal (ds : List Char) : ℕ := ds.foldl (fun a c => 10 * a + digitVal c) 0

/-- The greedy-with-backtracking match of the regex fragment `\d*\.?\d+`
at the start of `cs`: returns the matched characters and the rest, or
`none` when the fragment cannot match here. -/
def numericCore (cs : List Char) : Option (List Char × List Char) :=
  let d1 := cs.takeWhile isAsciiDigit
  let r1 := cs.dropWhile isAsciiDigit
  match r1 with
  | '.' :: r2 =>
    let d2 := r2.takeWhile isAsciiDigit
    if d2 ≠ [] then some (d1 ++ '.' :: d2, r2.dropWhile isAsciiDigit)
    else if d1 ≠ [] then some (d1, r1)
    else none
  | _ => if d1 ≠ [] then some (d1, r1) else none

/-- The greedy match of the optional regex fragment `(?:[eE][-+]?\d+)?`
at the start of `cs`: the matched characters (possibly `[]`) and the rest. -/
def expPart (cs : List Char) : List Char × List Char :=
  match cs with
  | e :: rest =>
    if e = 'e' || e = 'E' then
      match rest with
      | s :: r2 =>
        if s = '+' || s = '-' then
          let ds := r2.takeWhile isAsciiDigit
          if ds ≠ [] then (e :: s :: ds, r2.dropWhile isAsciiDigit) else ([], cs)
        else
          let ds := rest.takeWhile isAsciiDigit
          if ds ≠ [] then (e :: ds, rest.dropWhile isAsciiDigit) else ([], cs)
      | [] => ([], cs)
    else ([], cs)
  | [] => ([], cs)

/-- Match of `[-+]?\d*\.?\d+` (and, when `withExp` is set,
`(?:[eE][-+]?\d+)?` after it) at the start of `cs`. -/
def matchNum (withExp : Bool) (cs : List Char) : Option (List Char × List Char) :=
  let core := fun (sgn : List Char) (cs' : List Char) =>
    (numericCore cs').map (fun m =>
      if withExp then
        let e := expPart m.2
        (sgn ++ m.1 ++ e.1, e.2)
      else (sgn ++ m.1, m.2))
  match cs with
  | c :: rest => if c = '-' || c = '+' then core [c] rest else core [] cs
  | [] => none

/-- The `re.search` of the numeric group: the leftmost position at which
`matchNum` succeeds. -/
def searchNum (withExp : Bool) : List Char → Option (List Char × List Char)
  | [] => none
  | c :: rest =>
    match matchNum withExp (c :: rest) with
    | some r => some r
    | none => searchNum withExp rest

/-- Character class `[a-zA-Z-Ωμ]` of `CPLogParser._parse_limit_value`'s
regex (`Ω` is U+03A9, `μ` is U+03BC). -/
def unitClassA (c : Char) : Bool :=
  isAsciiAlpha c || c = '-' || c = 'Ω' || c = 'μ'

/-- Model of `re.search(r"([-+]?\d*\.?\d+(?:[eE][-+]?\d+)?)([a-zA-Z-Ωμ]*)", s)`:
the two groups of the first match, or `none` when there is no match. -/
def regexSearchA (s : String) : Option (String × String) :=
  (searchNum true s.data).map (fun m => (⟨m.1⟩, ⟨m.2.takeWhile unitClassA⟩))

/-- Model of `re.search(r"([-+]?\d*\.?\d+)([a-zA-Z]+)?", s)`: the two groups of the
first match (`none` in the second component models group 2 = `None`). -/
def regexSearchB (s : String) : Option (String × Option String) :=
  (searchNum false s.data).map (fun m =>
    (⟨m.1⟩,
      match m.2 with
      | c :: _ => if isAsciiAlpha c then some ⟨m.2.takeWhile isAsciiAlpha⟩ else none
      | [] => none))

/-- The textual decomposition of a Python float literal:
sign, integer digits, fraction digits and their count, exponent sign and
exponent digits.  Kept in `ℕ`/`Bool` so that concrete instances reduce in
the kernel. -/
structure FloatRepr where
  neg : Bool
  intVal : ℕ
  fracVal : ℕ
  fracLen : ℕ
  expNeg : Bool
  expVal : ℕ
  deriving DecidableEq

/-- The exact rational value of a decomposed float literal. -/
def FloatRepr.toQ (r : FloatRepr) : ℚ :=
  let mant : ℚ := (r.intVal : ℚ) + (r.fracVal : ℚ) / (10 : ℚ) ^ r.fracLen
  let scaled : ℚ := if r.expNeg then mant / (10 : ℚ) ^ r.expVal else mant * (10 : ℚ) ^ r.expVal
  if r.neg then -scaled else scaled

/-- Python `float(s)` on ordinary decimal/scientific literals, decomposed:
optional sign, then `digits[.digits]`, `.digits` or `digits.`, then an
optional exponent, with nothing left over after stripping whitespace.
`none` models a raised `ValueError`.  (The digit-free special literals
`inf`/`nan` are not modelled; no claim below evaluates them.) -/
def parseFloatRepr (s : String) : Option FloatRepr :=
  let cs := (pyStrip s).data
  let signed : Bool × List Char :=
    match cs with
    | '-' :: r => (true, r)
    | '+' :: r => (false, r)
    | _ => (false, cs)
  let neg := signed.1
  let body := signed.2
  let d1 := body.takeWhile isAsciiDigit
  let r1 := body.dropWhile isAsciiDigit
  let fracPart : Option ((ℕ × ℕ × ℕ) × List Char) :=
    match r1 with
    | '.' :: r2 =>
      let d2 := r2.takeWhile isAsciiDigit
      if d1 = [] && d2 = [] then none
      else some ((digitsVal d1, digitsVal d2, d2.length), r2.dropWhile isAsciiDigit)
    | _ => if d1 = [] then none else some ((digitsVal d1, 0, 0), r1)
  match fracPart with
  | none => none
  | some (mant, r2) =>
    match r2 with
    | e :: r3 =>
      if e = 'e' || e = 'E' then
        let signedE : Bool × List Char :=
          match r3 with
          | '-' :: r => (true, r)
          | '+' :: r => (false, r)
          | _ => (false, r3)
        let d3 := signedE.2.takeWhile isAsciiDigit
        if d3 = [] || signedE.2.dropWhile isAsciiDigit ≠ [] then none
        else some ⟨neg, mant.1, mant.2.1, mant.2.2, signedE.1, digitsVal d3⟩
      else none
    | [] => some ⟨neg, mant.1, mant.2.1, mant.2.2, false, 0⟩

/-- Python `float(s)` as an exact rational. -/
def parseFloatQ (s : String) : Option ℚ := (parseFloatRepr s).map FloatRepr.toQ

example : pyStrip "  900.0V \t" = "900.0V" := by decide
example : pySplitTab "1\t2\t3" = ["1", "2", "3"] := by decide
example : pyIsDigit "0042" = true := by decide
example : containsSub "mohm" "x mohm y" = true := by decide
example : regexSearchA "900.0V" = some ("900.0", "V") := by decide
example : regexSearchA "3.35E-002" = some ("3.35E-002", "") := by decide
example : regexSearchB "365.0mOHM" = some ("365.0", some "mOHM") := by decide
example : regexSearchB "3.35E-002" = some ("3.35", some "E") := by decide
example : parseFloatQ "3.35E-002" = some (67 / 2000) := by
  have h : parseFloatRepr "3.35E-002" = some ⟨false, 3, 35, 2, true, 2⟩ := by decide
  rw [parseFloatQ, h]
  norm_num [FloatRepr.toQ]
example : parseFloatQ "900.0" = some 900 := by
  have h : parseFloatRepr "900.0" = some ⟨false, 900, 0, 1, false, 0⟩ := by decide
  rw [parseFloatQ, h]
  norm_num [FloatRepr.toQ]
example : parseFloatQ "abc" = none := by decide

/-! ## `unit_adjuster.py`: `parse_limit_value` and `adjust_unit` -/

/-- The unit-name normalization chain of `unit_adjuster.parse_limit_value`
(the tuples are copied from the source; `Ω` is U+03A9, `ω` U+03C9). -/
def normalizeUnitName (unit : String) : String :=
  if unit = "ohm" ∨ unit = "Ω" ∨ unit = "ω" ∨ unit = "Ω" ∨ unit = "ohms" then "ohm"
  else if unit = "mohm" ∨ unit = "mΩ" ∨ unit = "mω" ∨ unit = "mΩ" ∨ unit = "mohms" ∨
      unit = "milliohm" ∨ unit = "milliohms" then "mohm"
  else if unit = "v" ∨ unit = "volt" ∨ unit = "volts" then "v"
  else if unit = "mv" ∨ unit = "mvolt" ∨ unit = "mvolts" ∨ unit = "millivolt" ∨
      unit = "millivolts" then "mv"
  else if unit = "a" ∨ unit = "amp" ∨ unit = "amps" ∨ unit = "ampere" ∨ unit = "amperes" then "a"
  else if unit = "ma" ∨ unit = "mamp" ∨ unit = "mamps" ∨ unit = "milliamp" ∨ unit = "milliamps" ∨
      unit = "milliampere" ∨ unit = "milliamperes" then "ma"
  else if unit = "ua" ∨ unit = "uamp" ∨ unit = "uamps" ∨ unit = "microamp" ∨ unit = "microamps" ∨
      unit = "microampere" ∨ unit = "microamperes" then "ua"
  else if unit = "na" ∨ unit = "namp" ∨ unit = "namps" ∨ unit = "nanoamp" ∨ unit = "nanoamps" ∨
      unit = "nanoampere" ∨ unit = "nanoamperes" then "na"
  else unit

/-- Model of `unit_adjuster.parse_limit_value`: regex-extract a numeric part and an
optional letter suffix, lowercase and normalize the suffix.  On regex
failure the source falls back to `float(limit_str)` with unit `""`;
`none` models the `ValueError` such a fallback can raise (the function has
no handler, so the exception propagates to the caller). -/
def parse_limit_value_ua (limit_str : String) : Option (ℚ × String) :=
  match regexSearchB limit_str with
  | none => (parseFloatQ limit_str).map (fun v => (v, ""))
  | some (vstr, ustr) =>
    let unit := match ustr with
      | some u => pyLower u
      | none => ""
    (parseFloatQ vstr).map (fun v => (v, normalizeUnitName unit))

/-- A Python float value that may be `NaN` (rationals model all other
floats exactly). -/
inductive FVal where
  | nan : FVal
  | num (q : ℚ) : FVal
  deriving DecidableEq

/-- The `is_mohm_scale` test of the RDSON1 branch of `adjust_unit`:
`limit_value > 10 or (limit_unit and 'mohm' in limit_unit.lower())`. -/
def is_mohm_scale (lv : ℚ) (lu : String) : Prop :=
  lv > 10 ∨ (lu ≠ "" ∧ containsSub "mohm" (pyLower lu) = true)

instance (lv : ℚ) (lu : String) : Decidable (is_mohm_scale lv lu) :=
  inferInstanceAs (Decidable (_ ∨ _))

/-- The `is_na_scale` test of the leakage-current branch:
`limit_unit and 'na' in limit_unit.lower()`. -/
def is_na_scale (lu : String) : Prop := lu ≠ "" ∧ containsSub "na" (pyLower lu) = true

instance (lu : String) : Decidable (is_na_scale lu) := inferInstanceAs (Decidable (_ ∧ _))

/-- The `is_ua_scale` test of the IDSS3 branch: `limit_unit and 'ua' in limit_unit.lower()`. -/
def is_ua_scale (lu : String) : Prop := lu ≠ "" ∧ containsSub "ua" (pyLower lu) = true

instance (lu : String) : Decidable (is_ua_scale lu) := inferInstanceAs (Decidable (_ ∧ _))

/-- The `is_mv_scale` test of the voltage branch: `limit_unit and 'mv' in limit_unit.lower()`. -/
def is_mv_scale (lu : String) : Prop := lu ≠ "" ∧ containsSub "mv" (pyLower lu) = true

instance (lu : String) : Decidable (is_mv_scale lu) := inferInstanceAs (Decidable (_ ∧ _))

/-- The branch structure of `unit_adjuster.adjust_unit` after the limit
has been parsed into `(lv, lu)`: every path of the source returns a float,
reproduced here case by case. -/
def adjust_core (v : ℚ) (param : String) (lv : ℚ) (lu : String) : ℚ :=
  if param = "RDSON1" then
    if v < 1 then (if is_mohm_scale lv lu then v * 1000 else v)
    else if v < 1000 then (if ¬ is_mohm_scale lv lu then v / 1000 else v)
    else (if is_mohm_scale lv lu then v / 1000 else v / 1000000)
  else if param = "IDSS1" ∨ param = "IDSS2" ∨ param = "IGSS2" ∨ param = "IGSSR2" then
    if v < 1 / 1000000 then (if is_na_scale lu ∨ lu = "" then v * 1000000000 else v)
    else if v < 1 / 1000 then (if is_na_scale lu ∨ lu = "" then v * 1000 else v)
    else v
  else if param = "IDSS3" then
    if v < 1 / 1000000 then (if is_ua_scale lu ∨ lu = "" then v * 1000000 else v)
    else v
  else if param = "VFSDS" ∨ param = "BVDSS1" ∨ param = "BVDSS2" ∨ param = "DELTABV" then
    if is_mv_scale lu ∧ v < 10 ∧ lv > 100 then v * 1000
    else if ¬ is_mv_scale lu ∧ v > 100 ∧ lv < 10 then v / 1000
    else if lv > 0 ∧ v > 0 ∧ 500 < lv / v ∧ lv / v < 2000 ∧ ¬ is_mv_scale lu then v * 1000
    else if lv > 0 ∧ v > 0 ∧ 1 / 2000 < lv / v ∧ lv / v < 1 / 500 ∧ is_mv_scale lu then v / 1000
    else v
  else v

/-- Model of `unit_adjuster.adjust_unit`: zero and `NaN` return immediately
(`if not value or np.isnan(value)`); otherwise the limit is parsed and the
parameter-family branches run.  `none` models an exception escaping from
the unguarded `parse_limit_value` call. -/
def adjust_unit (value : FVal) (param : String) (limit_u : String) : Option FVal :=
  match value with
  | .nan => some .nan
  | .num v =>
    if v = 0 then some (.num v)
    else
      match parse_limit_value_ua limit_u with
      | none => none
      | some (lv, lu) => some (.num (adjust_core v param lv lu))

/-- The parameters `adjust_unit` has conversion branches for. -/
def adjustedParams : List String :=
  ["RDSON1", "IDSS1", "IDSS2", "IGSS2", "IGSSR2", "IDSS3",
   "VFSDS", "BVDSS1", "BVDSS2", "DELTABV"]

example : parse_limit_value_ua "365.0mOHM" = some (365, "mohm") := by
  have h : regexSearchB "365.0mOHM" = some ("365.0", some "mOHM") := by decide
  have h2 : parseFloatRepr "365.0" = some ⟨false, 365, 0, 1, false, 0⟩ := by decide
  rw [parse_limit_value_ua, h]
  simp only [parseFloatQ, h2, Option.map_some]
  norm_num [FloatRepr.toQ]
  decide

/-- For a parameter outside every conversion family, `adjust_unit`'s
branch chain falls through and returns the value unchanged. -/
theorem adjust_core_of_not_handled (v lv : ℚ) (lu : String) (param : String)
    (h : param ∉ adjustedParams) : adjust_core v param lv lu = v := by
  simp only [adjustedParams, List.mem_cons, List.not_mem_nil, or_false, not_or] at h
  obtain ⟨h1, h2, h3, h4, h5, h6, h7, h8, h9, h10⟩ := h
  simp [adjust_core, h1, h2, h3, h4, h5, h6, h7, h8, h9, h10]

/-- The RDSON1 branch of `adjust_unit`, isolated. -/
theorem adjust_core_rdson1 (v lv : ℚ) (lu : String) :
    adjust_core v "RDSON1" lv lu =
      if v < 1 then (if is_mohm_scale lv lu then v * 1000 else v)
      else if v < 1000 then (if ¬ is_mohm_scale lv lu then v / 1000 else v)
      else (if is_mohm_scale lv lu then v / 1000 else v / 1000000) := by
  simp [adjust_core]

/-- On the RDSON1 branch, a value within three decades of the target band
is a fixed point after one pass: one conversion lands in `[1, 1000)`
(mohm-scale target) or below `1` (ohm-scale target), where no further
conversion fires. -/
theorem adjust_core_rdson1_fix (v lv : ℚ) (lu : String)
    (hlo : 1 / 1000 ≤ v) (hhi : v < 1000000) :
    adjust_core (adjust_core v "RDSON1" lv lu) "RDSON1" lv lu
      = adjust_core v "RDSON1" lv lu := by
  rw [adjust_core_rdson1 v]
  by_cases hm : is_mohm_scale lv lu
  · by_cases hv1 : v < 1
    · rw [if_pos hv1, if_pos hm, adjust_core_rdson1,
        if_neg (by linarith : ¬ v * 1000 < 1),
        if_pos (by linarith : v * 1000 < 1000), if_neg (not_not_intro hm)]
    · by_cases hv2 : v < 1000
      · rw [if_neg hv1, if_pos hv2, if_neg (not_not_intro hm), adjust_core_rdson1,
          if_neg hv1, if_pos hv2, if_neg (not_not_intro hm)]
      · rw [if_neg hv1, if_neg hv2, if_pos hm, adjust_core_rdson1,
          if_neg (by linarith : ¬ v / 1000 < 1),
          if_pos (by linarith : v / 1000 < 1000), if_neg (not_not_intro hm)]
  · by_cases hv1 : v < 1
    · rw [if_pos hv1, if_neg hm, adjust_core_rdson1, if_pos hv1, if_neg hm]
    · by_cases hv2 : v < 1000
      · rw [if_neg hv1, if_pos hv2, if_pos hm, adjust_core_rdson1,
          if_pos (by linarith : v / 1000 < 1), if_neg hm]
      · rw [if_neg hv1, if_neg hv2, if_neg hm, adjust_core_rdson1,
          if_pos (by linarith : v / 1000000 < 1), if_neg hm]

/-- C1 (amended): `adjust_unit` is idempotent for every parameter outside
the conversion families (where it is the identity) and, for RDSON1, for
every value between `1/1000` and `10^6`, whatever the limit token; a
second application then returns the first application's output unchanged. -/
theorem adjust_unit_idem_on_supported_range (param limit_u : String) (v : ℚ)
    (h : param ∉ adjustedParams ∨ (param = "RDSON1" ∧ 1 / 1000 ≤ v ∧ v < 1000000)) :
    (adjust_unit (.num v) param limit_u).bind (fun w => adjust_unit w param limit_u)
      = adjust_unit (.num v) param limit_u := by
  by_cases hv : v = 0
  · simp [adjust_unit, hv]
  · simp only [adjust_unit, if_neg hv]
    cases hparse : parse_limit_value_ua limit_u with
    | none => rfl
    | some p =>
      obtain ⟨lv, lu⟩ := p
      simp only [adjust_unit, Option.some_bind, hparse]
      by_cases hw : adjust_core v param lv lu = 0
      · rw [if_pos hw, hw]
      · rw [if_neg hw]
        rcases h with hnp | ⟨hp, hlo, hhi⟩
        · rw [adjust_core_of_not_handled _ _ _ _ hnp, adjust_core_of_not_handled _ _ _ _ hnp]
        · subst hp
          rw [adjust_core_rdson1_fix v lv lu hlo hhi]

/-- C1 witness: a concrete instance of the amended idempotence theorem at
`v = 2`, `param = RDSON1`, limit token `365.0mOHM`. -/
theorem adjust_unit_idem_witness :
    ("RDSON1" ∈ CP.adjustedParams ∧ (1 : ℚ) / 1000 ≤ 2 ∧ (2 : ℚ) < 1000000) ∧
      (adjust_unit (.num 2) "RDSON1" "365.0mOHM").bind
          (fun w => adjust_unit w "RDSON1" "365.0mOHM")
        = adjust_unit (.num 2) "RDSON1" "365.0mOHM" :=
  ⟨⟨by decide, by norm_num, by norm_num⟩,
    adjust_unit_idem_on_supported_range "RDSON1" "365.0mOHM" 2
      (Or.inr ⟨rfl, by norm_num, by norm_num⟩)⟩

/-- C1 counterexample: `adjust_unit` is not idempotent as claimed.  With
the aggregated upper limit `365.0mOHM` (mohm scale) and the RDSON1 value
`1/2000 = 0.0005`, one pass yields `0.5` and a second pass rescales again
to `500`. -/
theorem adjust_unit_double_rescale_cex :
    (adjust_unit (.num (1 / 2000)) "RDSON1" "365.0mOHM").bind
        (fun w => adjust_unit w "RDSON1" "365.0mOHM")
      ≠ adjust_unit (.num (1 / 2000)) "RDSON1" "365.0mOHM" := by
  have hp : parse_limit_value_ua "365.0mOHM" = some (365, "mohm") := by
    have h : regexSearchB "365.0mOHM" = some ("365.0", some "mOHM") := by decide
    have h2 : parseFloatRepr "365.0" = some ⟨false, 365, 0, 1, false, 0⟩ := by decide
    rw [parse_limit_value_ua, h]
    simp only [parseFloatQ, h2, Option.map_some]
    norm_num [FloatRepr.toQ]
    decide
  have hm : is_mohm_scale 365 "mohm" := Or.inl (by norm_num)
  have h1 : adjust_unit (.num (1 / 2000)) "RDSON1" "365.0mOHM" = some (.num (1 / 2)) := by
    simp only [adjust_unit, if_neg (by norm_num : ¬ (1 : ℚ) / 2000 = 0), hp]
    rw [adjust_core_rdson1, if_pos (by norm_num : (1 : ℚ) / 2000 < 1), if_pos hm]
    norm_num
  have h2 : adjust_unit (.num (1 / 2)) "RDSON1" "365.0mOHM" = some (.num 500) := by
    simp only [adjust_unit, if_neg (by norm_num : ¬ (1 : ℚ) / 2 = 0), hp]
    rw [adjust_core_rdson1, if_pos (by norm_num : (1 : ℚ) / 2 < 1), if_pos hm]
    norm_num
  rw [h1, Option.some_bind, h2]
  simp only [ne_eq, Option.some_inj, FVal.num.injEq]
  norm_num

/-- C10: `adjust_unit` returns its input unchanged when the value is `0.0`
or `NaN`, for every parameter name and every limit token — the guard
`if not value or np.isnan(value)` fires before any parsing or conversion. -/
theorem adjust_unit_zero_nan_unchanged (param limit_u : String) :
    adjust_unit (.num 0) param limit_u = some (.num 0) ∧
      adjust_unit .nan param limit_u = some .nan := by
  constructor <;> simp [adjust_unit]

/-! ## `CPLogParser._parse_limit_value` -/

/-- Python `str.endswith`. -/
def pyEndsWith (s suffix : String) : Bool := suffix.data.isSuffixOf s.data

/-- The leakage-current parameters of `CPLogParser._parse_limit_value`. -/
def currentParams : List String := ["IDSS1", "IDSS2", "IGSS2", "IGSSR2", "IDSS3"]

/-- The generic tail of `CPLogParser._parse_limit_value` (after the
parameter-specific families): scientific-notation direct conversion, then
regex extraction with the trailing-`-` special case.  The `std_unit`
computation of the source has no effect on the returned pair and is not
repeated here.  A failed final `float` conversion is reported as
`(None, None)`. -/
def parse_generic_rest (limit_str : String) : Option ℚ × Option String :=
  match regexSearchA limit_str with
  | none =>
    (match parseFloatQ limit_str with
     | some v => (some v, none)
     | none => (none, none))
  | some (vstr, ustr) =>
    if ustr = "-" && pyEndsWith limit_str "-" then
      (match parseFloatQ vstr with
       | some v => (some v, some "-")
       | none => (none, none))
    else
      (match parseFloatQ vstr with
       | some v => (some v, some ustr)
       | none => (none, none))

/-- The scientific-notation branch: `if 'E' in limit_str or 'e' in
limit_str: try float(limit_str)`, falling through on failure. -/
def parse_generic (limit_str : String) : Option ℚ × Option String :=
  if containsSub "E" limit_str || containsSub "e" limit_str then
    match parseFloatQ limit_str with
    | some v => (some v, none)
    | none => parse_generic_rest limit_str
  else parse_generic_rest limit_str

/-- Model of `CPLogParser._parse_limit_value(limit_str, param_name)`.  The
exceptions the source can raise inside its `try` (only `float`
conversions) are caught and reported as `(None, None)`, which the
`Option` results of `parseFloatQ` reproduce. -/
def parse_limit_value_lp (limit_str : String) (param_name : String) :
    Option ℚ × Option String :=
  if pyStrip limit_str = "" then (none, none)
  else if param_name = "RDSON1" then
    match regexSearchA limit_str with
    | some (vstr, ustr) =>
      let ul := pyLower ustr
      (match parseFloatQ vstr with
       | some v =>
         if containsSub "mohm" ul || containsSub "mω" ul || containsSub "mΩ" ul then
           (some v, some "mohm")
         else if containsSub "ohm" ul || containsSub "ω" ul || containsSub "Ω" ul then
           (some v, some "mohm")
         else (some v, some "mohm")
       | none => (none, none))
    | none =>
      (match parseFloatQ limit_str with
       | some v => (some v, some "mohm")
       | none => (none, none))
  else if param_name ∈ currentParams then
    match regexSearchA limit_str with
    | some (vstr, ustr) =>
      let ul := pyLower ustr
      (match parseFloatQ vstr with
       | some v =>
         if containsSub "na" ul then (some v, some "na")
         else if containsSub "ua" ul || containsSub "μa" ul then (some v, some "ua")
         else if containsSub "ma" ul then (some v, some "ma")
         else if containsSub "a" ul then (some v, some "a")
         else if param_name = "IDSS1" ∨ param_name = "IDSS2" ∨ param_name = "IGSS2" ∨
             param_name = "IGSSR2" then (some v, some "na")
         else if param_name = "IDSS3" then (some v, some "ua")
         else parse_generic limit_str
       | none => (none, none))
    | none =>
      (match parseFloatQ limit_str with
       | some v =>
         (some v,
          some (if param_name = "IDSS1" ∨ param_name = "IDSS2" ∨ param_name = "IGSS2" ∨
              param_name = "IGSSR2" then "na" else "ua"))
       | none => (none, none))
  else parse_generic limit_str

theorem parse_generic_900V : parse_generic "900.0V" = (some 900, some "V") := by
  have h : regexSearchA "900.0V" = some ("900.0", "V") := by decide
  have h2 : parseFloatRepr "900.0" = some ⟨false, 900, 0, 1, false, 0⟩ := by decide
  rw [parse_generic, if_neg (by decide), parse_generic_rest, h]
  simp only [parseFloatQ, h2, Option.map_some]
  norm_num [FloatRepr.toQ]
  decide

/-- C3 (amended): for the limit token `"900.0V"` and any parameter outside
the RDSON1 and leakage-current rule families, the limit parser returns
`(900.0, "V")` — the unit keeps its original spelling, it is not
lowercased on this path. -/
theorem parse_limit_900V_voltage (p : String) (h1 : p ≠ "RDSON1") (h2 : p ∉ currentParams) :
    parse_limit_value_lp "900.0V" p = (some 900, some "V") := by
  rw [parse_limit_value_lp, if_neg (by decide), if_neg h1, if_neg h2, parse_generic_900V]

/-- C3 witness: the general `"900.0V"` theorem applied at the voltage
parameter `BVDSS1`. -/
theorem parse_limit_900V_voltage_witness :
    (("BVDSS1" : String) ≠ "RDSON1" ∧ "BVDSS1" ∉ CP.currentParams) ∧
      parse_limit_value_lp "900.0V" "BVDSS1" = (some 900, some "V") :=
  ⟨⟨by decide, by decide⟩, parse_limit_900V_voltage "BVDSS1" (by decide) (by decide)⟩

/-- C3 counterexample: the parser does not return the lowercase unit `"v"`
claimed; the second component is the original spelling `"V"`. -/
theorem parse_limit_900V_not_lowercase :
    parse_limit_value_lp "900.0V" "BVDSS1" ≠ (some 900, some "v") := by
  rw [parse_limit_900V_voltage "BVDSS1" (by decide) (by decide)]
  simp only [ne_eq, Prod.mk.injEq, not_and]
  intro
  decide

/-- C5: in the RDSON1 branch of the limit parser, whenever the regex
extracts a numeric part and a unit token that is absent or free of any
milli-ohm spelling, the returned pair is the parsed numeric value
unconverted together with the default unit `"mohm"`. -/
theorem parse_limit_rdson1_unconverted (s vstr ustr : String) (v : ℚ)
    (hs : ¬ pyStrip s = "")
    (hm : regexSearchA s = some (vstr, ustr))
    (hv : parseFloatQ vstr = some v)
    (hnomilli : ustr = "" ∨
      ¬ (containsSub "mohm" (pyLower ustr) = true ∨ containsSub "mω" (pyLower ustr) = true ∨
        containsSub "mΩ" (pyLower ustr) = true)) :
    parse_limit_value_lp s "RDSON1" = (some v, some "mohm") := by
  rw [parse_limit_value_lp, if_neg hs]
  simp only [reduceIte, hm, hv]
  split_ifs <;> rfl

/-- C5 witness: the token `"3.35E-002"` for RDSON1 parses to
`(0.0335, "mohm")` — the value is not multiplied by 1000. -/
theorem parse_limit_rdson1_witness :
    (¬ pyStrip "3.35E-002" = "" ∧
        regexSearchA "3.35E-002" = some ("3.35E-002", "") ∧
        parseFloatQ "3.35E-002" = some 0.0335) ∧
      parse_limit_value_lp "3.35E-002" "RDSON1" = (some 0.0335, some "mohm") := by
  have hv : parseFloatQ "3.35E-002" = some 0.0335 := by
    have h2 : parseFloatRepr "3.35E-002" = some ⟨false, 3, 35, 2, true, 2⟩ := by decide
    rw [parseFloatQ, h2]
    norm_num [FloatRepr.toQ]
  exact ⟨⟨by decide, by decide, hv⟩,
    parse_limit_rdson1_unconverted "3.35E-002" "3.35E-002" "" 0.0335 (by decide) (by decide) hv
      (Or.inl rfl)⟩

/-! ## `CPLogParser._parse_file`: per-cell unit correction and
data-start search -/

/-- Association-list lookup with string keys (Python `dict` access). -/
def alookup (p : String) : List (String × α) → Option α
  | [] => none
  | (k, v) :: t => if k = p then some v else alookup p t

/-- Python `dict[key] = value` on an insertion-ordered association list:
replace the value at an existing key in place, else append the pair. -/
def dictInsert (m : List (String × α)) (p : String) (v : α) : List (String × α) :=
  match m with
  | [] => [(p, v)]
  | (k, w) :: t => if k = p then (k, v) :: t else (k, w) :: dictInsert t p v

theorem alookup_dictInsert_self (m : List (String × α)) (p : String) (v : α) :
    alookup p (dictInsert m p v) = some v := by
  induction m with
  | nil => simp [dictInsert, alookup]
  | cons a t ih =>
    obtain ⟨k, w⟩ := a
    by_cases hk : k = p
    · simp [dictInsert, hk, alookup]
    · simp only [dictInsert, if_neg hk, alookup, ih]

theorem alookup_dictInsert_ne (m : List (String × α)) (p q : String) (v : α) (h : q ≠ p) :
    alookup q (dictInsert m p v) = alookup q m := by
  induction m with
  | nil =>
    simp only [dictInsert, alookup]
    rw [if_neg (fun he : p = q => h he.symm)]
  | cons a t ih =>
    obtain ⟨k, w⟩ := a
    by_cases hk : k = p
    · subst hk
      simp only [dictInsert, if_pos rfl, alookup, if_neg (fun he : k = q => h he.symm)]
    · simp only [dictInsert, if_neg hk, alookup, ih]

/-- The per-cell value extraction and unit correction of
`CPLogParser._parse_file` (lines 357–391 of the source): strip the cell,
skip empties and the `999.9` sentinel, parse a float, then apply the
parameter-family unit correction against this file's recorded units,
returning the stored value (or `none` when the cell contributes nothing)
and the updated unit table. -/
def extractCell (param : String) (units : List (String × String)) (cell : String) :
    Option ℚ × List (String × String) :=
  if cell = "" then (none, units)
  else
    let s := pyStrip cell
    if s = "" then (none, units)
    else if pyLower s = "999.9" then (none, units)
    else
      match parseFloatQ s with
      | none => (none, units)
      | some v =>
        if param = "RDSON1" then
          let u := pyLower ((alookup param units).getD "")
          if u = "ohm" ∨ u = "" then (some (v * 1000), dictInsert units param "mohm")
          else (some v, units)
        else if (param = "IDSS1" ∨ param = "IGSS2" ∨ param = "IGSSR2" ∨ param = "IDSS2") ∧
            alookup param units = some "a" then
          (some (v * 1000000000), dictInsert units param "na")
        else if param = "IDSS3" ∧ alookup param units = some "a" then
          (some (v * 1000000), units)
        else (some v, units)

/-- C6: when the per-file recorded unit for RDSON1 is plain ohms (or no
unit was recorded), the extractor stores the parsed float multiplied by
1000 and re-tags the recorded unit as `"mohm"`. -/
theorem extractCell_rdson1_ohm (units : List (String × String)) (cell : String) (v : ℚ)
    (hc : cell ≠ "")
    (hs : ¬ pyStrip cell = "")
    (h999 : ¬ pyLower (pyStrip cell) = "999.9")
    (hv : parseFloatQ (pyStrip cell) = some v)
    (hu : pyLower ((alookup "RDSON1" units).getD "") = "ohm" ∨
      pyLower ((alookup "RDSON1" units).getD "") = "") :
    extractCell "RDSON1" units cell = (some (v * 1000), dictInsert units "RDSON1" "mohm") ∧
      alookup "RDSON1" (dictInsert units "RDSON1" "mohm") = some "mohm" := by
  refine ⟨?_, alookup_dictInsert_self units "RDSON1" "mohm"⟩
  rw [extractCell, if_neg hc]
  simp only [if_neg hs, if_neg h999, hv, reduceIte, if_pos hu]

/-- C6 witness: raw value `0.0335782` with recorded unit `"ohm"` is stored
as `33.5782` and the unit becomes `"mohm"`. -/
theorem extractCell_rdson1_ohm_witness :
    (("0.0335782" : String) ≠ "" ∧
        parseFloatQ (pyStrip "0.0335782") = some 0.0335782 ∧
        pyLower ((alookup "RDSON1" [("RDSON1", "ohm")]).getD "") = "ohm") ∧
      extractCell "RDSON1" [("RDSON1", "ohm")] "0.0335782"
          = (some 33.5782, [("RDSON1", "mohm")]) ∧
        alookup "RDSON1" [("RDSON1", "mohm")] = some "mohm" := by
  have hv : parseFloatQ (pyStrip "0.0335782") = some 0.0335782 := by
    have h2 : parseFloatRepr (pyStrip "0.0335782") = some ⟨false, 0, 335782, 7, false, 0⟩ := by
      decide
    rw [parseFloatQ, h2]
    norm_num [FloatRepr.toQ]
  have hmain := extractCell_rdson1_ohm [("RDSON1", "ohm")] "0.0335782" 0.0335782
    (by decide) (by decide) (by decide) hv (Or.inl (by decide))
  refine ⟨⟨by decide, hv, by decide⟩, ?_, hmain.2⟩
  rw [hmain.1]
  have : (0.0335782 : ℚ) * 1000 = 33.5782 := by norm_num
  rw [this]
  rfl

/-- The data-row test of the data-start search in `_parse_file`: the
stripped line is nonempty, starts with a digit, contains none of the
`LimitU`/`LimitL`/`Bias` markers, is tab-delimited, splits into at least
three fields, and its first field is a pure digit string. -/
def dataRowOk (line : String) : Bool :=
  (match (pyStrip line).data with
   | [] => false
   | c :: _ => isAsciiDigit c)
  && !(containsSub "LimitU" (pyStrip line) || containsSub "LimitL" (pyStrip line) ||
    containsSub "Bias" (pyStrip line))
  && containsSub "\t" (pyStrip line)
  && decide (3 ≤ (pySplitTab (pyStrip line)).length)
  && pyIsDigit ((pySplitTab (pyStrip line)).headD "")

/-- The data-start search of `_parse_file`: the first index in
`range(params_line_idx + 1, len(lines))` whose line passes `dataRowOk`. -/
def findDataStart (lines : List String) (paramsIdx : ℕ) : Option ℕ :=
  (List.range' (paramsIdx + 1) (lines.length - (paramsIdx + 1))).find?
    (fun i => dataRowOk (lines.getD i ""))

/-- C9: whenever the data-start search succeeds, the located row comes
strictly after the header row and its first tab-separated field is a pure
non-negative integer literal. -/
theorem findDataStart_spec (lines : List String) (p i : ℕ)
    (h : findDataStart lines p = some i) :
    p < i ∧ pyIsDigit ((pySplitTab (pyStrip (lines.getD i ""))).headD "") = true := by
  have h1 := List.find?_some h
  have h2 := List.mem_of_find?_eq_some h
  rw [List.mem_range'] at h2
  simp only [dataRowOk, Bool.and_eq_true] at h1
  exact ⟨by omega, h1.2⟩

/-- C9 witness: a three-line file whose data row `1\t2\t3` is found at
index 2, after the header at index 0. -/
theorem findDataStart_spec_witness :
    findDataStart ["No.U\tX\tY", "LimitU\t900\t660", "1\t2\t3"] 0 = some 2 ∧
      (0 < 2 ∧
        pyIsDigit ((pySplitTab (pyStrip (["No.U\tX\tY", "LimitU\t900\t660",
          "1\t2\t3"].getD 2 ""))).headD "") = true) :=
  ⟨by decide, findDataStart_spec _ 0 2 (by decide)⟩

/-! ## `CPLogParser.parse_all_files`: limit aggregation and defaults -/

/-- A per-parameter limit record: `{'upper': ..., 'lower': ..., 'unit': ...}`. -/
@[ext]
structure LimitEntry where
  upper : Option ℚ
  lower : Option ℚ
  unit : Option String
  deriving DecidableEq

/-- Python `a if a is not None else b`: keep the first non-null value. -/
def orO : Option α → Option α → Option α
  | some x, _ => some x
  | none, b => b

/-- The first non-null element of a list of optional values. -/
def firstSome : List (Option α) → Option α
  | [] => none
  | a :: l => orO a (firstSome l)

theorem orO_none (a : Option α) : orO a none = a := by cases a <;> rfl

theorem orO_assoc (a b c : Option α) : orO (orO a b) c = orO a (orO b c) := by
  cases a <;> rfl

/-- The field-wise merge of `parse_all_files` (lines 510–515): a field of
the accumulated entry is overwritten only while it is still null. -/
def fillEntry (a b : LimitEntry) : LimitEntry :=
  ⟨orO a.upper b.upper, orO a.lower b.lower, orO a.unit b.unit⟩

/-- One step of the limit merge: a parameter not yet seen contributes its
whole entry, an already-seen parameter only fills still-null fields. -/
def mergeStep (acc : List (String × LimitEntry)) (pe : String × LimitEntry) :
    List (String × LimitEntry) :=
  match alookup pe.1 acc with
  | none => dictInsert acc pe.1 pe.2
  | some a => dictInsert acc pe.1 (fillEntry a pe.2)

/-- Merging one file's limits dictionary into the accumulated batch
dictionary (`for param, limit_values in limits.items()`). -/
def mergeFile (acc : List (String × LimitEntry)) (file : List (String × LimitEntry)) :
    List (String × LimitEntry) :=
  file.foldl mergeStep acc

/-- The limit-aggregation loop of `parse_all_files` over the files of a
batch, in processing order. -/
def aggregateLimits (files : List (List (String × LimitEntry))) :
    List (String × LimitEntry) :=
  files.foldl mergeFile []

/-- Merging an optional freshly-parsed entry into an optional accumulated
entry, at a single parameter. -/
def mergeOpt (a b : Option LimitEntry) : Option LimitEntry :=
  match b with
  | none => a
  | some e =>
    match a with
    | none => some e
    | some a' => some (fillEntry a' e)

theorem alookup_eq_none_of_not_mem : ∀ (t : List (String × α)) (p : String),
    p ∉ t.map Prod.fst → alookup p t = none
  | [], _, _ => rfl
  | (k, w) :: t, p, h => by
    simp only [List.map_cons, List.mem_cons, not_or] at h
    rw [alookup, if_neg (fun he => h.1 he.symm)]
    exact alookup_eq_none_of_not_mem t p h.2

theorem alookup_mergeStep (acc : List (String × LimitEntry)) (q : String) (e : LimitEntry)
    (p : String) :
    alookup p (mergeStep acc (q, e)) =
      if q = p then mergeOpt (alookup p acc) (some e) else alookup p acc := by
  by_cases hq : q = p
  · subst hq
    rw [if_pos rfl]
    cases halo : alookup q acc with
    | none => simp only [mergeStep, halo, alookup_dictInsert_self, mergeOpt]
    | some a => simp only [mergeStep, halo, alookup_dictInsert_self, mergeOpt]
  · rw [if_neg hq]
    simp only [mergeStep]
    cases alookup q acc with
    | none => exact alookup_dictInsert_ne _ _ _ _ (fun he => hq he.symm)
    | some a => exact alookup_dictInsert_ne _ _ _ _ (fun he => hq he.symm)

theorem alookup_mergeFile (file : List (String × LimitEntry))
    (hnd : (file.map Prod.fst).Nodup) (acc : List (String × LimitEntry)) (p : String) :
    alookup p (mergeFile acc file) = mergeOpt (alookup p acc) (alookup p file) := by
  induction file generalizing acc with
  | nil => rfl
  | cons a t ih =>
    obtain ⟨q, e⟩ := a
    simp only [List.map_cons, List.nodup_cons] at hnd
    rw [mergeFile, List.foldl_cons,
      show List.foldl mergeStep (mergeStep acc (q, e)) t = mergeFile (mergeStep acc (q, e)) t
        from rfl,
      ih hnd.2, alookup_mergeStep]
    by_cases hq : q = p
    · subst hq
      rw [if_pos rfl, alookup_eq_none_of_not_mem t q hnd.1]
      simp [alookup, mergeOpt]
    · rw [if_neg hq]
      simp only [alookup, if_neg hq]

theorem alookup_aggregate (files : List (List (String × LimitEntry)))
    (hnd : ∀ f ∈ files, (f.map Prod.fst).Nodup) (acc : List (String × LimitEntry)) (p : String) :
    alookup p (files.foldl mergeFile acc) =
      (files.map (alookup p)).foldl mergeOpt (alookup p acc) := by
  induction files generalizing acc with
  | nil => rfl
  | cons f fs ih =>
    rw [List.foldl_cons, List.map_cons, List.foldl_cons,
      ih (fun g hg => hnd g (List.mem_cons_of_mem f hg)),
      alookup_mergeFile f (hnd f (List.mem_cons_self f fs))]

theorem foldl_mergeOpt_filterMap (l : List (Option LimitEntry)) (a : Option LimitEntry) :
    l.foldl mergeOpt a = (l.filterMap id).foldl (fun x e => mergeOpt x (some e)) a := by
  induction l generalizing a with
  | nil => rfl
  | cons b t ih =>
    cases b with
    | none =>
      rw [List.foldl_cons, show mergeOpt a none = a from rfl, ih]
      simp [List.filterMap_cons]
    | some e =>
      rw [List.foldl_cons, ih]
      simp [List.filterMap_cons]

theorem foldl_mergeOpt_some (es : List LimitEntry) (x : LimitEntry) :
    es.foldl (fun x e => mergeOpt x (some e)) (some x) = some (es.foldl fillEntry x) := by
  induction es generalizing x with
  | nil => rfl
  | cons e t ih => rw [List.foldl_cons, List.foldl_cons, show mergeOpt (some x) (some e)
      = some (fillEntry x e) from rfl, ih]

theorem foldl_fill_proj {β : Type} (g : LimitEntry → Option β)
    (hg : ∀ a b, g (fillEntry a b) = orO (g a) (g b))
    (e0 : LimitEntry) (es : List LimitEntry) :
    g (es.foldl fillEntry e0) = orO (g e0) (firstSome (es.map g)) := by
  induction es generalizing e0 with
  | nil => rw [List.foldl_nil, List.map_nil, firstSome, orO_none]
  | cons e t ih =>
    rw [List.foldl_cons, ih, hg, orO_assoc, List.map_cons, firstSome]

/-- C7: limit aggregation is first-non-null-wins per field.  For every
batch whose per-file limit dictionaries have no duplicate keys, and every
parameter some file mentions, the aggregated entry's `upper`, `lower` and
`unit` each equal the first non-null value supplied for that field by the
files in processing order (so later files never overwrite a non-null
field). -/
theorem aggregate_first_nonnull (files : List (List (String × LimitEntry)))
    (hnd : ∀ f ∈ files, (f.map Prod.fst).Nodup)
    (p : String) (e0 : LimitEntry) (es : List LimitEntry)
    (hes : files.filterMap (alookup p) = e0 :: es) :
    alookup p (aggregateLimits files) =
      some ⟨firstSome ((e0 :: es).map LimitEntry.upper),
            firstSome ((e0 :: es).map LimitEntry.lower),
            firstSome ((e0 :: es).map LimitEntry.unit)⟩ := by
  have hfm : (files.map (alookup p)).filterMap id = e0 :: es := by
    rw [List.filterMap_map]
    simpa using hes
  rw [aggregateLimits, alookup_aggregate files hnd [] p,
    show alookup p ([] : List (String × LimitEntry)) = none from rfl,
    foldl_mergeOpt_filterMap, hfm, List.foldl_cons,
    show mergeOpt none (some e0) = some e0 from rfl, foldl_mergeOpt_some]
  have hu := foldl_fill_proj LimitEntry.upper (fun a b => rfl) e0 es
  have hl := foldl_fill_proj LimitEntry.lower (fun a b => rfl) e0 es
  have hn := foldl_fill_proj LimitEntry.unit (fun a b => rfl) e0 es
  rw [List.map_cons, List.map_cons, List.map_cons, firstSome, firstSome, firstSome]
  exact congrArg some (LimitEntry.ext hu hl hn)

/-- C7 witness: a 3-file batch where file 1 supplies only an upper limit
for `X`, file 2 only a lower limit, file 3 all fields: the aggregated
entry takes `upper` from file 1, `lower` from file 2 and `unit` from
file 3. -/
theorem aggregate_first_nonnull_witness :
    (∀ f ∈ [[("X", (⟨some 9, none, none⟩ : LimitEntry))],
        [("X", (⟨none, some 1, none⟩ : LimitEntry))],
        [("X", (⟨some 7, some 2, some "v"⟩ : LimitEntry))]],
      (f.map Prod.fst).Nodup) ∧
      alookup "X" (aggregateLimits
          [[("X", ⟨some 9, none, none⟩)], [("X", ⟨none, some 1, none⟩)],
           [("X", ⟨some 7, some 2, some "v"⟩)]])
        = some ⟨some 9, some 1, some "v"⟩ := by
  have h := aggregate_first_nonnull
    [[("X", ⟨some 9, none, none⟩)], [("X", ⟨none, some 1, none⟩)],
     [("X", ⟨some 7, some 2, some "v"⟩)]]
    (by decide) "X" ⟨some 9, none, none⟩
    [⟨none, some 1, none⟩, ⟨some 7, some 2, some "v"⟩] (by decide)
  exact ⟨by decide, by rw [h]; rfl⟩

/-- The target parameters of `CPLogParser.__init__` extended with `IDSS3`
(`extended_params` in `parse_all_files`). -/
def extendedParams : List String :=
  ["BVDSS1", "BVDSS2", "DELTABV", "IDSS1", "VTH", "RDSON1", "VFSDS",
   "IGSS2", "IGSSR2", "IDSS2", "IDSS3"]

/-- The static default entry used when a parameter is entirely missing
from the aggregated limits (lines 520–541 of `log_parser.py`). -/
def defaultEntry (p : String) : LimitEntry :=
  if p = "BVDSS1" ∨ p = "BVDSS2" then ⟨some 900, some 660, some "v"⟩
  else if p = "DELTABV" then ⟨some 50, some (-10), some "v"⟩
  else if p = "IDSS1" ∨ p = "IDSS2" then ⟨some (250 / 1000000000), some 0, some "a"⟩
  else if p = "IDSS3" then ⟨some (250 / 1000000), some 0, some "ua"⟩
  else if p = "VTH" then ⟨some 4, some 3, some "v"⟩
  else if p = "RDSON1" then ⟨some (365 / 1000), some (100 / 1000), some "ohm"⟩
  else if p = "VFSDS" then ⟨some 1, some 0, some "v"⟩
  else if p = "IGSS2" ∨ p = "IGSSR2" then ⟨some (300 / 1000000000), some 0, some "a"⟩
  else ⟨none, none, none⟩

/-- The per-parameter default upper limit used when only `upper` is
missing (lines 544–560). -/
def defaultUpper (p : String) : Option ℚ :=
  if p = "BVDSS1" ∨ p = "BVDSS2" then some 900
  else if p = "DELTABV" then some 50
  else if p = "IDSS1" ∨ p = "IDSS2" then some (250 / 1000000000)
  else if p = "IDSS3" then some (250 / 1000000)
  else if p = "VTH" then some 4
  else if p = "RDSON1" then some (365 / 1000)
  else if p = "VFSDS" then some 1
  else if p = "IGSS2" ∨ p = "IGSSR2" then some (300 / 1000000000)
  else none

/-- The per-parameter default lower limit used when only `lower` is
missing (lines 562–576; note `IDSS3` shares the current-parameter rule
here). -/
def defaultLower (p : String) : Option ℚ :=
  if p = "BVDSS1" ∨ p = "BVDSS2" then some 660
  else if p = "DELTABV" then some (-10)
  else if p = "IDSS1" ∨ p = "IDSS2" ∨ p = "IDSS3" then some 0
  else if p = "VTH" then some 3
  else if p = "RDSON1" then some (100 / 1000)
  else if p = "VFSDS" then some 0
  else if p = "IGSS2" ∨ p = "IGSSR2" then some 0
  else none

/-- The default-filling step for one parameter: a missing parameter gets
the full static default entry; a present one has only its null `upper` and
`lower` fields filled (its `unit` is never defaulted). -/
def fillParam (acc : List (String × LimitEntry)) (p : String) : List (String × LimitEntry) :=
  match alookup p acc with
  | none => dictInsert acc p (defaultEntry p)
  | some e => dictInsert acc p ⟨orO e.upper (defaultUpper p), orO e.lower (defaultLower p), e.unit⟩

/-- The default-filling loop of `parse_all_files` over `extended_params`. -/
def applyDefaults (acc : List (String × LimitEntry)) : List (String × LimitEntry) :=
  extendedParams.foldl fillParam acc

/-- The limit half of `parse_all_files`: aggregate all files' limits, then
fill defaults. -/
def parse_all_limits (files : List (List (String × LimitEntry))) : List (String × LimitEntry) :=
  applyDefaults (aggregateLimits files)

/-- A parameter entry with both bounds present. -/
def filledAt (m : List (String × LimitEntry)) (p : String) : Prop :=
  ∃ e, alookup p m = some e ∧ e.upper.isSome = true ∧ e.lower.isSome = true

theorem defaultEntry_filled (p : String) (hp : p ∈ extendedParams) :
    (defaultEntry p).upper.isSome = true ∧ (defaultEntry p).lower.isSome = true := by
  fin_cases hp <;> decide

theorem defaultUpper_isSome (p : String) (hp : p ∈ extendedParams) :
    (defaultUpper p).isSome = true := by
  fin_cases hp <;> decide

theorem defaultLower_isSome (p : String) (hp : p ∈ extendedParams) :
    (defaultLower p).isSome = true := by
  fin_cases hp <;> decide

theorem orO_isSome_right (a b : Option α) (hb : b.isSome = true) : (orO a b).isSome = true := by
  cases a
  · exact hb
  · rfl

theorem orO_isSome_left (a b : Option α) (ha : a.isSome = true) : (orO a b).isSome = true := by
  cases a
  · exact absurd ha (by simp)
  · rfl

theorem filledAt_fillParam_self (m : List (String × LimitEntry)) (p : String)
    (hp : p ∈ extendedParams) : filledAt (fillParam m p) p := by
  rw [fillParam]
  cases halo : alookup p m with
  | none =>
    exact ⟨defaultEntry p, alookup_dictInsert_self m p _, defaultEntry_filled p hp⟩
  | some e =>
    refine ⟨_, alookup_dictInsert_self m p _, ?_, ?_⟩
    · exact orO_isSome_right _ _ (defaultUpper_isSome p hp)
    · exact orO_isSome_right _ _ (defaultLower_isSome p hp)

theorem filledAt_fillParam_preserve (m : List (String × LimitEntry)) (p q : String)
    (h : filledAt m p) : filledAt (fillParam m q) p := by
  obtain ⟨e, he, hu, hl⟩ := h
  by_cases hq : q = p
  · subst hq
    rw [fillParam, he]
    exact ⟨_, alookup_dictInsert_self m q _, orO_isSome_left _ _ hu, orO_isSome_left _ _ hl⟩
  · rw [fillParam]
    cases alookup q m with
    | none => exact ⟨e, by rw [alookup_dictInsert_ne _ _ _ _ (fun hpq => hq hpq.symm)]; exact he,
        hu, hl⟩
    | some a => exact ⟨_, by rw [alookup_dictInsert_ne _ _ _ _ (fun hpq => hq hpq.symm)]; exact he,
        hu, hl⟩

theorem filledAt_foldl_preserve (l : List String) (m : List (String × LimitEntry)) (p : String)
    (h : filledAt m p) : filledAt (l.foldl fillParam m) p := by
  induction l generalizing m with
  | nil => exact h
  | cons q t ih => exact ih _ (filledAt_fillParam_preserve m p q h)

theorem filledAt_foldl_mem (l : List String) (m : List (String × LimitEntry)) (p : String)
    (hl : ∀ q ∈ l, q ∈ extendedParams) (hp : p ∈ l) : filledAt (l.foldl fillParam m) p := by
  induction l generalizing m with
  | nil => cases hp
  | cons q t ih =>
    rcases List.mem_cons.1 hp with rfl | hpt
    · exact filledAt_foldl_preserve t _ p
        (filledAt_fillParam_self m p (hl p (List.mem_cons_self p t)))
    · exact ih _ (fun r hr => hl r (List.mem_cons_of_mem q hr)) hpt

/-- C2: after the limit aggregation and default-filling stage of
`parse_all_files`, every parameter of the known target set has a non-null
`upper` and a non-null `lower`, whatever limits (possibly none) the input
files supplied. -/
theorem parse_all_limits_filled (files : List (List (String × LimitEntry))) (p : String)
    (hp : p ∈ ["BVDSS1", "BVDSS2", "DELTABV", "IDSS1", "IDSS2", "IDSS3", "VTH",
      "RDSON1", "VFSDS", "IGSS2", "IGSSR2"]) :
    ∃ e, alookup p (parse_all_limits files) = some e ∧
      e.upper.isSome = true ∧ e.lower.isSome = true := by
  have hp' : p ∈ extendedParams := by fin_cases hp <;> decide
  exact filledAt_foldl_mem extendedParams (aggregateLimits files) p (fun q hq => hq) hp'

/-- C2 witness: with no input files at all, `VTH` still gets both bounds
from the defaults. -/
theorem parse_all_limits_filled_witness :
    (("VTH" : String) ∈ ["BVDSS1", "BVDSS2", "DELTABV", "IDSS1", "IDSS2", "IDSS3", "VTH",
        "RDSON1", "VFSDS", "IGSS2", "IGSSR2"]) ∧
      ∃ e, alookup "VTH" (parse_all_limits []) = some e ∧
        e.upper.isSome = true ∧ e.lower.isSome = true :=
  ⟨by decide, parse_all_limits_filled [] "VTH" (by decide)⟩

/-! ## `StandardCPDataCleanerStrategy.clean` -/

/-- A pandas cell: a string, a float, a boolean flag, or `NaN`. -/
inductive PyCell where
  | pstr (s : String) : PyCell
  | pnum (q : ℚ) : PyCell
  | pbool (b : Bool) : PyCell
  | pnan : PyCell
  deriving DecidableEq

/-- A DataFrame: its column list and its rows, each row an association
list from column name to cell. -/
structure PyDF where
  cols : List String
  rows : List (List (String × PyCell))

/-- Reading a cell (missing key reads as `NaN`). -/
def getCell (r : List (String × PyCell)) (c : String) : PyCell := (alookup c r).getD .pnan

/-- Pandas `df[col] = scalar`: add (or overwrite) a column with one constant. -/
def addConstCol (df : PyDF) (c : String) (v : PyCell) : PyDF :=
  ⟨df.cols ++ [c], df.rows.map (fun r => dictInsert r c v)⟩

/-- Pandas `df['No.U'] = range(1, len(df) + 1)`. -/
def addRangeCol (df : PyDF) (c : String) : PyDF :=
  ⟨df.cols ++ [c], df.rows.enum.map (fun ir => dictInsert ir.2 c (.pnum ((ir.1 : ℚ) + 1)))⟩

/-- Model of `pd.to_numeric(cell, errors='coerce')` on one cell. -/
def toNumCell : PyCell → PyCell
  | .pnum q => .pnum q
  | .pbool b => .pnum (if b then 1 else 0)
  | .pnan => .pnan
  | .pstr s =>
    match parseFloatQ s with
    | some q => .pnum q
    | none => .pnan

/-- Pandas `df[param] = pd.to_numeric(df[param], errors='coerce')`. -/
def toNumericCol (df : PyDF) (c : String) : PyDF :=
  ⟨df.cols, df.rows.map (fun r => dictInsert r c (toNumCell (getCell r c)))⟩

/-- Pandas `df[param] > t` on one cell (`NaN` and non-numeric compare false). -/
def cellGT (c : PyCell) (t : ℚ) : Bool :=
  match c with
  | .pnum q => decide (t < q)
  | _ => false

/-- Pandas `df[param] < t` on one cell. -/
def cellLT (c : PyCell) (t : ℚ) : Bool :=
  match c with
  | .pnum q => decide (q < t)
  | _ => false

/-- Pandas `df.loc[mask, col] = True`: set the flag on masked rows; on a freshly
created column the unmasked rows read `NaN`. -/
def maskedSetTrue (df : PyDF) (c : String) (mask : List (String × PyCell) → Bool) : PyDF :=
  if df.cols.contains c then
    ⟨df.cols, df.rows.map (fun r => if mask r then dictInsert r c (.pbool true) else r)⟩
  else
    ⟨df.cols ++ [c], df.rows.map (fun r => dictInsert r c (if mask r then .pbool true else .pnan))⟩

/-- The per-parameter body of `StandardCPDataCleanerStrategy.clean`:
coerce the column to numeric, then mark `*_outlier_high`/`*_spec_high`
when an upper limit is known and `*_outlier_low`/`*_spec_low` when a lower
limit is known (`mask_spec` excludes the rows already marked as
outliers). -/
def processParam (limits : List (String × LimitEntry)) (df : PyDF) (param : String) : PyDF :=
  let df1 := toNumericCol df param
  let ul := (alookup param limits).bind LimitEntry.upper
  let ll := (alookup param limits).bind LimitEntry.lower
  let df2 :=
    match ul with
    | none => df1
    | some u =>
      let dfa := maskedSetTrue df1 (param ++ "_outlier_high")
        (fun r => cellGT (getCell r param) (u * (3 / 2)))
      maskedSetTrue dfa (param ++ "_spec_high")
        (fun r => cellGT (getCell r param) u && !(cellGT (getCell r param) (u * (3 / 2))))
  match ll with
  | none => df2
  | some l =>
    let dfb := maskedSetTrue df2 (param ++ "_outlier_low")
      (fun r => cellLT (getCell r param) (l * (1 / 2)))
    maskedSetTrue dfb (param ++ "_spec_low")
      (fun r => cellLT (getCell r param) l && !(cellLT (getCell r param) (l * (1 / 2))))

/-- Model of `StandardCPDataCleanerStrategy.clean(data, limits)`: copy, add the
required `Lot`/`Wafer`/`No.U` columns when missing, then run the marking
pass over the column snapshot taken before the loop (flag columns added
during the loop are not iterated, as in the source). -/
def cleanStandard (data : PyDF) (limits : List (String × LimitEntry)) : PyDF :=
  let df1 := if data.cols.contains "Lot" then data else addConstCol data "Lot" (.pstr "LOT01")
  let df2 := if df1.cols.contains "Wafer" then df1 else addConstCol df1 "Wafer" (.pstr "01")
  let df3 := if df2.cols.contains "No.U" then df2 else addRangeCol df2 "No.U"
  df3.cols.foldl (fun acc param =>
    if param = "Lot" ∨ param = "Wafer" ∨ param = "No.U" then acc
    else processParam limits acc param) df3

theorem maskedSetTrue_rows_length (df : PyDF) (c : String)
    (mask : List (String × PyCell) → Bool) :
    (maskedSetTrue df c mask).rows.length = df.rows.length := by
  rw [maskedSetTrue]
  split_ifs <;> simp

theorem processParam_rows_length (limits : List (String × LimitEntry)) (df : PyDF)
    (param : String) : (processParam limits df param).rows.length = df.rows.length := by
  rw [processParam]
  have h1 : (toNumericCol df param).rows.length = df.rows.length := by
    simp [toNumericCol]
  cases (alookup param limits).bind LimitEntry.upper <;>
    cases (alookup param limits).bind LimitEntry.lower <;>
      simp [maskedSetTrue_rows_length, h1]

theorem foldl_processParam_rows_length (limits : List (String × LimitEntry))
    (l : List String) (df : PyDF) :
    (l.foldl (fun acc param =>
        if param = "Lot" ∨ param = "Wafer" ∨ param = "No.U" then acc
        else processParam limits acc param) df).rows.length = df.rows.length := by
  induction l generalizing df with
  | nil => rfl
  | cons p t ih =>
    rw [List.foldl_cons]
    by_cases hp : p = "Lot" ∨ p = "Wafer" ∨ p = "No.U"
    · rw [if_pos hp, ih]
    · rw [if_neg hp, ih, processParam_rows_length]

/-- C8: the standard cleaning strategy never deletes rows — for every
input table and limits dictionary, the cleaned table has at least as many
rows as the input (in fact exactly as many: flags are added column-wise,
rows are only marked). -/
theorem cleanStandard_row_count (data : PyDF) (limits : List (String × LimitEntry)) :
    data.rows.length ≤ (cleanStandard data limits).rows.length := by
  rw [cleanStandard]
  rw [foldl_processParam_rows_length]
  split_ifs <;> simp [addConstCol, addRangeCol]

/-! ## `CPDataAnalyzer.calculate_statistics` -/

/-- Insertion of one element into a sorted list (ascending). -/
def insertOrd [LinearOrder α] (x : α) : List α → List α
  | [] => [x]
  | y :: t => if x ≤ y then x :: y :: t else y :: insertOrd x t

/-- Sorting, as pandas does before computing quantiles and as
`sorted(...)` orders the wafer ids. -/
def sortOrd [LinearOrder α] (xs : List α) : List α := xs.foldr insertOrd []

/-- Pandas `Series.mean()`. -/
def pandasMean (xs : List ℚ) : ℚ := xs.sum / xs.length

/-- Pandas `Series.quantile(q)` with its' default linear interpolation, for a
nonempty series. -/
def pandasQuantile (xs : List ℚ) (q : ℚ) : ℚ :=
  let s := sortOrd xs
  let n := s.length
  let h : ℚ := q * ((n : ℚ) - 1)
  let lo : ℕ := Int.toNat ⌊h⌋
  let a := s.getD lo 0
  let b := s.getD (lo + 1) a
  a + (h - lo) * (b - a)

/-- Pandas `Series.min()` of a nonempty series. -/
def minQ (xs : List ℚ) : ℚ := (xs.min?).getD 0

/-- Pandas `Series.max()` of a nonempty series. -/
def maxQ (xs : List ℚ) : ℚ := (xs.max?).getD 0

/-- The sample variance with pandas' default `ddof = 1` (only used for
series of length at least 2). -/
def sampleVar (xs : List ℚ) : ℚ :=
  ((xs.map (fun x => (x - pandasMean xs) ^ 2)).sum) / ((xs.length : ℚ) - 1)

/-- A float stored in a `std` field, kept symbolic so the development
stays executable: `lit q` is the literal float `q` (the hard-coded `0.0`),
`sqrtOf v` is `√v`.  (`√v` is irrational in general; no claim below
compares two distinct `sqrtOf` values, so the symbolic form is exact.) -/
inductive StdVal where
  | lit (q : ℚ) : StdVal
  | sqrtOf (v : ℚ) : StdVal
  deriving DecidableEq

/-- Pandas `Series.std()` (ddof = 1): `NaN` — modelled as `none` — on zero or one
sample, otherwise the square root of the sample variance. -/
def pandasStd (xs : List ℚ) : Option StdVal :=
  if xs.length ≤ 1 then none else some (.sqrtOf (sampleVar xs))

/-- The per-wafer statistics bucket of `calculate_statistics`. -/
structure WaferStats where
  mean : ℚ
  median : ℚ
  std : Option StdVal
  vmin : ℚ
  vmax : ℚ
  count : ℕ
  vrange : ℚ
  deriving DecidableEq

/-- The overall statistics bucket of `calculate_statistics`. -/
structure OverallStats where
  mean : ℚ
  median : ℚ
  std : Option StdVal
  vmin : ℚ
  vmax : ℚ
  count : ℕ
  vrange : ℚ
  q10 : ℚ
  q25 : ℚ
  q50 : ℚ
  q75 : ℚ
  q90 : ℚ
  upper_limit : Option ℚ
  lower_limit : Option ℚ
  deriving DecidableEq

/-- The full result of `calculate_statistics` for one parameter. -/
structure Statistics where
  overall : OverallStats
  by_lot : List (String × WaferStats)
  deriving DecidableEq

/-- Model of `CPDataAnalyzer.calculate_statistics` for one parameter, on a cleaned
table modelled as `(Wafer, value)` rows (`none` is a missing value — the
guard clauses for an absent parameter column or absent Wafer column are
DataFrame plumbing and are outside this model).  `limits` is the
`self.limits[param]` lookup: `none` when the parameter has no limits
entry, otherwise its `(upper, lower)` pair.  The overall bucket calls
`Series.std()` unguarded; the per-wafer bucket guards it with
`if len(wafer_data) > 1 else 0.0`. -/
def calculate_statistics (df : List (String × Option ℚ))
    (limits : Option (Option ℚ × Option ℚ)) : Option Statistics :=
  let data := df.filterMap Prod.snd
  if data.length = 0 then none
  else
    some
      { overall :=
          { mean := pandasMean data
            median := pandasQuantile data (1 / 2)
            std := pandasStd data
            vmin := minQ data
            vmax := maxQ data
            count := data.length
            vrange := maxQ data - minQ data
            q10 := pandasQuantile data (1 / 10)
            q25 := pandasQuantile data (1 / 4)
            q50 := pandasQuantile data (1 / 2)
            q75 := pandasQuantile data (3 / 4)
            q90 := pandasQuantile data (9 / 10)
            upper_limit := limits.bind Prod.fst
            lower_limit := limits.bind Prod.snd }
        by_lot :=
          (sortOrd (df.map Prod.fst).dedup).filterMap (fun w =>
            let wdata := (df.filter (fun r => r.1 = w)).filterMap Prod.snd
            if wdata.length = 0 then none
            else
              some (w,
                { mean := pandasMean wdata
                  median := pandasQuantile wdata (1 / 2)
                  std := if 1 < wdata.length then pandasStd wdata else some (.lit 0)
                  vmin := minQ wdata
                  vmax := maxQ wdata
                  count := wdata.length
                  vrange := maxQ wdata - minQ wdata })) }

/-- C4 (code bug): on a dataset with exactly one non-missing value the
per-wafer bucket reports `std = 0.0` as the claim states — its `std` is
guarded by `if len(wafer_data) > 1 else 0.0` — but the overall bucket
calls `Series.std()` unguarded, which is `NaN` (ddof = 1) for a single
sample, not `0.0`. -/
theorem calculate_statistics_overall_singleton_nan :
    (calculate_statistics [("01", some 5)] none).map
        (fun st => (st.overall.std, st.overall.count,
          st.by_lot.map (fun ws => (ws.1, ws.2.std, ws.2.count))))
      = some (none, 1, [("01", some (.lit 0), 1)]) := by
  rfl

end CP
